import Mathlib

/-!
Verification development for the kubengine deployment orchestrator.

This file gives a shallow embedding of the two subsystems the specification
centres on:

* `DeploymentState` / `K8sDeployer.execute_deployment` from `src/cli/k8s.py`
  (crash-resumable deployment ledger and the fail-fast file loop), and
* the result model and multi-file execution strategies of
  `InfraFileExecutor` from `src/infra/executor_wrapper.py`.

Python dictionaries are embedded as insertion-ordered association lists
(`dictInsert` updates an existing key in place and appends a new one, which
is exactly CPython dict-assignment semantics).  Wall-clock timestamp fields
(`last_execution_time`, `execution_start_time`, `execution_end_time`) carry
no information used by any control decision in the source and are omitted.
External effects (SSH connections, module execution, the pyinfra engine) are
passed in as explicit oracle parameters; the list of file names actually
handed to the execution oracle is returned alongside the result as ghost
instrumentation so that "file F was never executed" is directly statable.
-/

set_option autoImplicit false

namespace KubEngine

/-! ## DeploymentState (`src/cli/k8s.py`, class `DeploymentState`) -/

/-- Deployment ledger held in `DeploymentState.state`.  The JSON
persistence layer (`_load_state` / `_save_state`) and the
`last_execution_time` timestamp are omitted: every mutator rewrites the
whole structure, so the in-memory record is the whole observable state. -/
structure DeploymentState where
  completed_files : List String
  failed_files : List String
  config_hash : Option String
  deployment_hash : Option String
deriving DecidableEq, Repr

/-- Fresh state returned by `_load_state` when no state file exists. -/
def DeploymentState.initial : DeploymentState :=
  { completed_files := [], failed_files := [], config_hash := none, deployment_hash := none }

/-- Python `is_file_completed`: membership test on `completed_files`. -/
def DeploymentState.is_file_completed (st : DeploymentState) (file_name : String) : Bool :=
  st.completed_files.contains file_name

/-- Python `is_file_failed`: membership test on `failed_files`. -/
def DeploymentState.is_file_failed (st : DeploymentState) (file_name : String) : Bool :=
  st.failed_files.contains file_name

/-- Python `mark_file_completed`: append to `completed_files` when absent,
and remove the first occurrence from `failed_files` when present
(`list.remove` removes only the first occurrence). -/
def DeploymentState.mark_file_completed (st : DeploymentState) (file_name : String) :
    DeploymentState :=
  let completed :=
    if st.completed_files.contains file_name then st.completed_files
    else st.completed_files ++ [file_name]
  let failed :=
    if st.failed_files.contains file_name then st.failed_files.erase file_name
    else st.failed_files
  { st with completed_files := completed, failed_files := failed }

/-- Python `mark_file_failed`: append to `failed_files` when absent.
It does not touch `completed_files`. -/
def DeploymentState.mark_file_failed (st : DeploymentState) (file_name : String) :
    DeploymentState :=
  if st.failed_files.contains file_name then st
  else { st with failed_files := st.failed_files ++ [file_name] }

/-- Python `set_deployment_hash` (the `last_execution_time` mtime update is
display-only and omitted). -/
def DeploymentState.set_deployment_hash (st : DeploymentState)
    (config_hash deployment_hash : String) : DeploymentState :=
  { st with config_hash := some config_hash, deployment_hash := some deployment_hash }

/-- Python `reset_state`: replace the whole record with the fresh default. -/
def DeploymentState.reset_state (_st : DeploymentState) : DeploymentState :=
  DeploymentState.initial

/-- Python `should_force_redeploy`: true when either stored hash differs
from the currently computed one (a stored `None` differs from any string,
matching Python `!=` on `None` vs `str`). -/
def DeploymentState.should_force_redeploy (st : DeploymentState)
    (config_hash deployment_hash : String) : Bool :=
  st.config_hash != some config_hash || st.deployment_hash != some deployment_hash

/-- One call of the mark-API on a fixed filename (for reasoning about call
sequences on the same file). -/
inductive MarkOp
  | complete
  | fail
deriving DecidableEq, Repr

/-- Apply one mark call for `file_name`. -/
def applyMark (st : DeploymentState) (file_name : String) : MarkOp → DeploymentState
  | .complete => st.mark_file_completed file_name
  | .fail => st.mark_file_failed file_name

/-- Apply a sequence of mark calls for `file_name`, first call first. -/
def applyMarks (st : DeploymentState) (file_name : String) (ops : List MarkOp) :
    DeploymentState :=
  ops.foldl (fun s op => applyMark s file_name op) st

/-! ## K8sDeployer orchestration (`src/cli/k8s.py`) -/

/-- Outcome of one `InfraFileExecutor.execute_file` call as observed by
`execute_deployment`: either a returned result carrying its `success` flag,
or a raised exception. -/
inductive FileExecOutcome
  | result (success : Bool)
  | exn
deriving DecidableEq, Repr

/-- Python `K8sDeployer._filter_pending_files`: on a hash mismatch reset the
state, store the new hashes and return every file; otherwise keep the state
and return the files not yet marked completed, in order. -/
def filterPendingFiles (st : DeploymentState) (configHash deploymentHash : String)
    (deployment_files : List String) : DeploymentState × List String :=
  if st.should_force_redeploy configHash deploymentHash then
    let st := st.reset_state
    let st := st.set_deployment_hash configHash deploymentHash
    (st, deployment_files)
  else
    (st, deployment_files.filter (fun f => !(st.is_file_completed f)))

/-- Per-file loop of `K8sDeployer.execute_deployment`: run each pending file
in order; on `success` mark completed and continue, on a failed result or an
exception mark failed and stop.  Returns the boolean outcome, the final
state, and (ghost) the list of files handed to the executor. -/
def deployLoop (runFile : String → FileExecOutcome) :
    DeploymentState → List String → Bool × DeploymentState × List String
  | st, [] => (true, st, [])
  | st, f :: rest =>
    match runFile f with
    | .result true =>
        let out := deployLoop runFile (st.mark_file_completed f) rest
        (out.1, out.2.1, f :: out.2.2)
    | .result false => (false, st.mark_file_failed f, [f])
    | .exn => (false, st.mark_file_failed f, [f])

/-- Python `K8sDeployer.execute_deployment`: filter pending files, return
`true` at once when nothing is pending, otherwise run the fail-fast loop. -/
def execute_deployment (st : DeploymentState) (configHash deploymentHash : String)
    (deployment_files : List String) (runFile : String → FileExecOutcome) :
    Bool × DeploymentState × List String :=
  let fp := filterPendingFiles st configHash deploymentHash deployment_files
  if fp.2.isEmpty then (true, fp.1, [])
  else deployLoop runFile fp.1 fp.2

/-! ## InfraFileExecutor result model (`src/infra/executor_wrapper.py`) -/

/-- Python-dict assignment on an insertion-ordered association list:
`d[k] = v` updates an existing key in place and appends a missing one
(CPython dict semantics). -/
def dictInsert {α : Type} (k : String) (v : α) : List (String × α) → List (String × α)
  | [] => [(k, v)]
  | (k', v') :: rest =>
    if k' = k then (k', v) :: rest else (k', v') :: dictInsert k v rest

/-- Python-dict lookup `d.get(k)`. -/
def dictLookup {α : Type} (k : String) : List (String × α) → Option α
  | [] => none
  | (k', v) :: rest => if k' = k then some v else dictLookup k rest

/-- Update every value of a dict in place, keeping keys (the shape of every
Python loop in the source that mutates `host_results` values). -/
def mapVals {α : Type} (f : String → α → α) (l : List (String × α)) : List (String × α) :=
  l.map (fun p => (p.1, f p.1 p.2))

/-- Python truthiness of an optional string: `None` and `""` are falsy. -/
def strTruthy : Option String → Bool
  | none => false
  | some s => s ≠ ""

/-- Dataclass `HostOperationResult` (defaults as in the source). -/
structure HostOperationResult where
  operation_name : String
  success : Bool := false
  changed : Bool := false
  output : List String := []
  error : Option String := none
deriving DecidableEq, Repr

/-- Dataclass `HostExecutionResult`; the two wall-clock timestamp fields are
omitted, `operations` is a Python dict keyed by operation name. -/
structure HostExecutionResult where
  hostname : String
  connected : Bool := false
  operations : List (String × HostOperationResult) := []
  total_operations : Nat := 0
  successful_operations : Nat := 0
  failed_operations : Nat := 0
  changed_operations : Nat := 0
  error : Option String := none
deriving DecidableEq, Repr

/-- Python property `HostExecutionResult.success`. -/
def HostExecutionResult.success (h : HostExecutionResult) : Bool :=
  h.connected && h.failed_operations == 0 && h.error == none

/-- Dataclass `InfraExecutionResult`; timestamps omitted, `host_results` is
a Python dict keyed by host IP. -/
structure InfraExecutionResult where
  success : Bool := false
  host_results : List (String × HostExecutionResult) := []
  total_hosts : Nat := 0
  connected_hosts : Nat := 0
  successful_hosts : Nat := 0
  failed_hosts : Nat := 0
  changed_hosts : Nat := 0
  global_error : Option String := none
deriving DecidableEq, Repr

/-- Python `{ip: HostExecutionResult(hostname=ip) for ip in host_ips}`. -/
def initHostResults (host_ips : List String) : List (String × HostExecutionResult) :=
  host_ips.foldl (fun acc ip => dictInsert ip { hostname := ip } acc) []

/-- Python `_calculate_summary_metrics`: recompute the cross-host counters
from `host_results` and derive the `success` flag. -/
def calculateSummaryMetrics (r : InfraExecutionResult) : InfraExecutionResult :=
  let connected := r.host_results.countP (fun p => p.2.connected)
  let successful := r.host_results.countP (fun p => p.2.success)
  let failed := r.host_results.countP (fun p => !p.2.success)
  let changed := r.host_results.countP (fun p => decide (0 < p.2.changed_operations))
  { r with
    connected_hosts := connected, successful_hosts := successful
    failed_hosts := failed, changed_hosts := changed
    success := r.global_error == none && failed == 0 && decide (0 < r.total_hosts) }

/-- One pyinfra operation outcome as read off the engine's per-host results
in `_collect_operation_results` (after the duck-typed attribute extraction;
`output` is taken already coerced to a list of strings). -/
structure PyOpResult where
  name : Option String
  success : Bool := true
  changed : Bool := false
  output : List String := []
  error : Option String := none
deriving DecidableEq, Repr

/-- Engine-side data for one host, `state.results.get(host)`. -/
structure PyHostRun where
  opResults : List (String × PyOpResult)
  hostError : Option String := none
deriving Repr

/-- External behavior of pyinfra for one `execute_file` call: which hosts
connected, whether the module spec loaded, per-host `exec_module` exception
text, and the engine's result store. -/
structure PyInfraRun where
  activated : List String
  moduleLoadOk : Bool
  execModuleError : String → Option String
  hasStateResults : Bool
  hostRun : String → Option PyHostRun
  opOrder : List String

/-- Body of the per-operation loop in `_collect_operation_results`:
disambiguate a duplicate operation name with a numeric suffix (the
`counter` dict mirrors `op_name_counter`), build the `HostOperationResult`
and bump the per-host counters. -/
def collectOpsStep (hr : HostExecutionResult) (counter : List (String × Nat))
    (opHash : String) (op : PyOpResult) : HostExecutionResult × List (String × Nat) :=
  let baseName := op.name.getD ("operation_" ++ opHash.take 8)
  let named :=
    match dictLookup baseName counter with
    | some n => (baseName ++ "_" ++ toString (n + 1), dictInsert baseName (n + 1) counter)
    | none => (baseName, dictInsert baseName 0 counter)
  let opName := named.1
  let hop : HostOperationResult :=
    { operation_name := opName, success := op.success, changed := op.changed
      output := op.output
      error := if !op.success && strTruthy op.error then op.error else none }
  ({ hr with
      operations := dictInsert opName hop hr.operations
      total_operations := hr.total_operations + 1
      successful_operations := hr.successful_operations + (if op.success then 1 else 0)
      failed_operations := hr.failed_operations + (if op.success then 0 else 1)
      changed_operations := hr.changed_operations + (if op.changed then 1 else 0) },
    named.2)

/-- Walk of the op order for one host; op hashes missing from the host's
results are skipped. -/
def collectOpsGo (opResults : List (String × PyOpResult)) :
    List String → HostExecutionResult → List (String × Nat) → HostExecutionResult
  | [], hr, _ => hr
  | h :: rest, hr, counter =>
    match dictLookup h opResults with
    | none => collectOpsGo opResults rest hr counter
    | some op =>
      let s := collectOpsStep hr counter h op
      collectOpsGo opResults rest s.1 s.2

/-- Per-host part of `_collect_operation_results`: resolve the op order
(falling back to the host's own result keys when `state.op_order` is empty),
run the collection loop and record a truthy engine-side host error. -/
def collectHostOps (opOrder : List String) (hrun : PyHostRun)
    (hr : HostExecutionResult) : HostExecutionResult :=
  let order := if opOrder.isEmpty then hrun.opResults.map Prod.fst else opOrder
  let hr := collectOpsGo hrun.opResults order hr []
  if strTruthy hrun.hostError then { hr with error := hrun.hostError } else hr

/-- Python `_collect_operation_results`: when the engine's result store is
truthy, visit every activated host that is tracked and connected and
collect its operations. -/
def collectOperationResults (run : PyInfraRun) (result : InfraExecutionResult) :
    InfraExecutionResult :=
  if !run.hasStateResults then result
  else
    run.activated.foldl (fun res ip =>
      { res with host_results := mapVals (fun k hr =>
          if k == ip && hr.connected then
            match run.hostRun ip with
            | none => hr
            | some hrun => collectHostOps run.opOrder hrun hr
          else hr) res.host_results }) result

/-- Connection marking at the start of `_execute_deployment`: `connected`
becomes membership in the activated set; a non-connected host gets the
descriptive connection error. -/
def markConnected (activated : List String) (hrs : List (String × HostExecutionResult)) :
    List (String × HostExecutionResult) :=
  mapVals (fun ip hr =>
    if activated.contains ip then { hr with connected := true }
    else
      { hr with
        connected := false
        error := some "Failed to connect to host (check SSH config in shared_data)" }) hrs

/-- Per-host module execution loop of `_execute_deployment`: each activated
host found in the inventory keeps `connected := true` and, when
`exec_module` raises, has the exception recorded as its error. -/
def applyExecModule (execModuleError : String → Option String)
    (activated : List String) (hrs : List (String × HostExecutionResult)) :
    List (String × HostExecutionResult) :=
  activated.foldl (fun acc ip =>
    mapVals (fun k hr =>
      if k == ip then
        match execModuleError ip with
        | some e =>
          { hr with
            connected := true
            error := some ("Failed to execute module on host " ++ ip ++ ": " ++ e) }
        | none => { hr with connected := true }
      else hr) acc) hrs

/-- Python `_execute_deployment` with pyinfra behavior supplied by `run`.
A raised exception is returned together with the partially mutated result,
because Python mutates the caller's `result` in place before raising. -/
def executeDeploymentModel (run : PyInfraRun) (result : InfraExecutionResult) :
    Except (String × InfraExecutionResult) InfraExecutionResult :=
  let result :=
    { result with host_results := markConnected run.activated result.host_results }
  if run.activated.isEmpty then
    .error ("No hosts were successfully connected", result)
  else if !run.moduleLoadOk then
    .error ("Failed to load module spec", result)
  else
    let result := { result with
      host_results := applyExecModule run.execModuleError run.activated result.host_results }
    .ok (collectOperationResults run result)

/-- Python `InfraFileExecutor.execute_file` before the `finally` block:
initialize a result entry for every requested IP, validate the path, run
the deployment, catching any exception into `global_error`.
`fileExists` / `isFile` stand for the two `Path` checks. -/
def executeFileCore (fileExists isFile : Bool) (host_ips : List String)
    (run : PyInfraRun) : InfraExecutionResult :=
  let result : InfraExecutionResult :=
    { total_hosts := host_ips.length, host_results := initHostResults host_ips }
  if !fileExists then
    { result with
      global_error := some "Infrastructure execution failed: Infrastructure file not found"
      success := false }
  else if !isFile then
    { result with
      global_error := some "Infrastructure execution failed: Path is not a file"
      success := false }
  else
    match executeDeploymentModel run result with
    | .ok r => r
    | .error pr =>
      { pr.2 with global_error := some ("Infrastructure execution failed: " ++ pr.1)
                  success := false }

/-- Python `InfraFileExecutor.execute_file`: the `finally` block always
recomputes the summary metrics on the way out. -/
def execute_file (fileExists isFile : Bool) (host_ips : List String)
    (run : PyInfraRun) : InfraExecutionResult :=
  calculateSummaryMetrics (executeFileCore fileExists isFile host_ips run)

/-- Synthetic failed operation stamped onto every still-connected host
(shared shape of the three stamping loops in `execute_files`). -/
def stampFailedOp (key errMsg : String) (hrs : List (String × HostExecutionResult)) :
    List (String × HostExecutionResult) :=
  mapVals (fun _ hr =>
    if hr.connected then
      { hr with
        operations := dictInsert key
          { operation_name := key, success := false, error := some errMsg } hr.operations
        total_operations := hr.total_operations + 1
        failed_operations := hr.failed_operations + 1 }
    else hr) hrs

/-- Body of the operation-merging loop in `_merge_execution_results`: copy
one operation under the file-name prefix and bump the counters. -/
def mergeOpsStep (file_name : String) (acc : HostExecutionResult)
    (p : String × HostOperationResult) : HostExecutionResult :=
  { acc with
    operations := dictInsert (file_name ++ "_" ++ p.1) p.2 acc.operations
    total_operations := acc.total_operations + 1
    successful_operations := acc.successful_operations + (if p.2.success then 1 else 0)
    failed_operations := acc.failed_operations + (if p.2.success then 0 else 1)
    changed_operations := acc.changed_operations + (if p.2.changed then 1 else 0) }

/-- Per-host part of `_merge_execution_results`: OR the connection flags,
copy every operation under a file-name prefix while summing the counters,
and keep the first truthy error (tagged with the file name). -/
def mergeHostResult (file_name : String) (mainHR fileHR : HostExecutionResult) :
    HostExecutionResult :=
  let acc := { mainHR with connected := mainHR.connected || fileHR.connected }
  let acc := fileHR.operations.foldl (mergeOpsStep file_name) acc
  if strTruthy fileHR.error && !strTruthy acc.error then
    { acc with error := some ("[" ++ file_name ++ "] " ++ fileHR.error.getD "") }
  else acc

/-- Python `_merge_execution_results`: merge a single-file result into the
aggregate, touching only the hosts present in both. -/
def mergeExecutionResults (main : InfraExecutionResult) (fileR : InfraExecutionResult)
    (file_name : String) : InfraExecutionResult :=
  { main with host_results := mapVals (fun ip hr =>
      match dictLookup ip fileR.host_results with
      | some fh => mergeHostResult file_name hr fh
      | none => hr) main.host_results }

/-- Summary operation appended on full success of the fail-fast sequential
path (its human-readable output strings are display-only and omitted). -/
def fileSummaryOp : HostOperationResult :=
  { operation_name := "file_execution_summary", success := true }

/-- Python `_execute_files_sequential_fail_fast`.  `runFile` is the
`execute_file` call on a fresh executor; `Except.error` models a raised
exception.  The second component (ghost) lists the files actually handed to
`runFile`, in order. -/
def seqFailFast (runFile : String → Except String InfraExecutionResult) :
    List String → InfraExecutionResult → InfraExecutionResult × List String
  | [], result =>
    let result :=
      { result with
        global_error := none
        success := true
        host_results := mapVals (fun _ hr =>
          { hr with operations :=
              dictInsert "_file_execution_summary" fileSummaryOp hr.operations })
          result.host_results }
    (result, [])
  | file_name :: rest, result =>
    match runFile file_name with
    | .error e =>
      let errMsg := "Exception occurred while executing file " ++ file_name ++ ": " ++ e
      let result := { result with global_error := some errMsg, success := false }
      let result :=
        { result with
          host_results :=
            stampFailedOp ("execution_exception_at_" ++ file_name) errMsg
              result.host_results }
      (result, [file_name])
    | .ok fileResult =>
      if !fileResult.success then
        let errMsg := "File " ++ file_name ++ " execution failed: "
          ++ (if strTruthy fileResult.global_error then fileResult.global_error.getD ""
              else "Unknown error")
        let result := mergeExecutionResults result fileResult file_name
        let result := { result with global_error := some errMsg, success := false }
        let result :=
          { result with
            host_results :=
              stampFailedOp ("execution_stopped_at_" ++ file_name)
                ("Execution stopped due to failure in file: " ++ file_name)
                result.host_results }
        (result, [file_name])
      else
        let merged := mergeExecutionResults result fileResult file_name
        let out := seqFailFast runFile rest merged
        (out.1, file_name :: out.2)

/-- Loop of `_execute_files_sequential_continue_on_failure`, accumulating
the per-file success record (`file_results`). -/
def seqContinue (runFile : String → Except String InfraExecutionResult) :
    List String → InfraExecutionResult → List (String × Bool) →
      InfraExecutionResult × List (String × Bool) × List String
  | [], result, fileResults => (result, fileResults, [])
  | file_name :: rest, result, fileResults =>
    match runFile file_name with
    | .ok fileResult =>
      let result := mergeExecutionResults result fileResult file_name
      let out := seqContinue runFile rest result
        (fileResults ++ [(file_name, fileResult.success)])
      (out.1, out.2.1, file_name :: out.2.2)
    | .error e =>
      let errMsg := "Failed to execute file " ++ file_name ++ ": " ++ e
      let result :=
        { result with
          host_results :=
            stampFailedOp ("file_execution_" ++ file_name) errMsg result.host_results }
      let out := seqContinue runFile rest result (fileResults ++ [(file_name, false)])
      (out.1, out.2.1, file_name :: out.2.2)

/-- Tail of `_execute_files_sequential_continue_on_failure`: derive the
global error from the failed-file record and append the summary op. -/
def seqContinueFinish (result : InfraExecutionResult)
    (fileResults : List (String × Bool)) : InfraExecutionResult :=
  let failedFiles := (fileResults.filter (fun p => !p.2)).map Prod.fst
  let result :=
    if failedFiles.isEmpty then { result with global_error := none }
    else
      { result with
        global_error := some ("Failed files: " ++ String.intercalate ", " failedFiles) }
  let summaryOp : HostOperationResult :=
    { operation_name := "file_execution_summary", success := result.success }
  { result with
    host_results := mapVals (fun _ hr =>
      { hr with operations := dictInsert "_file_execution_summary" summaryOp hr.operations })
      result.host_results }

/-- Thread body of the parallel mode (`execute_single_file`): an exception
becomes a fresh failed result (`error_result` in the source). -/
def parallelFileResult (host_ips : List String) (file_name : String) :
    Except String InfraExecutionResult → InfraExecutionResult
  | .ok r => r
  | .error e =>
    { success := false
      global_error := some ("Thread execution failed for " ++ file_name ++ ": " ++ e)
      total_hosts := host_ips.length, host_results := initHostResults host_ips }

/-- Python `_execute_files_parallel`: merge file results in thread
completion order, then append the parallel summary op. -/
def parallelExec (runFile : String → Except String InfraExecutionResult)
    (host_ips : List String) (completionOrder : List String)
    (result : InfraExecutionResult) : InfraExecutionResult :=
  let result := completionOrder.foldl (fun acc file_name =>
    mergeExecutionResults acc
      (parallelFileResult host_ips file_name (runFile file_name)) file_name) result
  let summaryOp : HostOperationResult :=
    { operation_name := "parallel_execution_summary", success := result.success }
  { result with
    host_results := mapVals (fun _ hr =>
      { hr with operations := dictInsert "_parallel_execution_summary" summaryOp hr.operations })
      result.host_results }

/-- Execution mode of `execute_files`; parallel mode carries the
nondeterministic thread completion order as a parameter. -/
inductive ExecMode
  | sequential
  | parallel (completionOrder : List String)

/-- Python `InfraFileExecutor.execute_files`: each file carries its name
and the two path-validation outcomes; validation failure of any file aborts
before any execution; the `finally` block always recomputes summary
metrics.  The second component (ghost) lists the files handed to `runFile`. -/
def execute_files (files : List (String × Bool × Bool)) (host_ips : List String)
    (failFast : Bool) (mode : ExecMode)
    (runFile : String → Except String InfraExecutionResult) :
    InfraExecutionResult × List String :=
  let result : InfraExecutionResult :=
    { total_hosts := host_ips.length, host_results := initHostResults host_ips }
  match files.find? (fun f => !f.2.1 || !f.2.2) with
  | some f =>
    (calculateSummaryMetrics
      { result with
        global_error := some ("Multiple files execution failed: invalid file " ++ f.1)
        success := false }, [])
  | none =>
    match mode with
    | .parallel order =>
      (calculateSummaryMetrics (parallelExec runFile host_ips order result), order)
    | .sequential =>
      if failFast then
        let out := seqFailFast runFile (files.map Prod.fst) result
        (calculateSummaryMetrics out.1, out.2)
      else
        let out := seqContinue runFile (files.map Prod.fst) result []
        (calculateSummaryMetrics (seqContinueFinish out.1 out.2.1), out.2.2)

/-- Result carried by either outcome of the modelled `_execute_deployment`
call (Python mutates the same `result` object whether or not it raises). -/
def exceptResult : Except (String × InfraExecutionResult) InfraExecutionResult →
    InfraExecutionResult
  | .ok r => r
  | .error pr => pr.2

/-- Every requested IP has an entry in `host_results`, keyed by the IP and
with `hostname` equal to it (the tracking property behind the accessors
such as `get_connection_failures`). -/
def hostsTracked (ips : List String) (hrs : List (String × HostExecutionResult)) : Prop :=
  ∀ ip ∈ ips, ∃ hr, dictLookup ip hrs = some hr ∧ hr.hostname = ip

/-! ## Helper lemmas about the DeploymentState mark API -/

lemma mark_file_failed_completed_eq (st : DeploymentState) (f : String) :
    (st.mark_file_failed f).completed_files = st.completed_files := by
  unfold DeploymentState.mark_file_failed
  split <;> rfl

lemma mark_file_failed_mem (st : DeploymentState) (f : String) :
    f ∈ (st.mark_file_failed f).failed_files := by
  unfold DeploymentState.mark_file_failed
  split
  · next h => simpa using h
  · simp

lemma mark_file_failed_count (st : DeploymentState) (f : String)
    (h : st.failed_files.count f ≤ 1) :
    (st.mark_file_failed f).failed_files.count f ≤ 1 := by
  unfold DeploymentState.mark_file_failed
  split
  · exact h
  · next hn =>
    have : f ∉ st.failed_files := by simpa using hn
    simp [List.count_append, List.count_eq_zero.mpr this]

lemma mark_file_completed_mem (st : DeploymentState) (f : String) :
    f ∈ (st.mark_file_completed f).completed_files := by
  unfold DeploymentState.mark_file_completed
  dsimp only
  split
  · next h => simpa using h
  · simp

lemma mark_file_completed_failed_not_mem (st : DeploymentState) (f : String)
    (h : st.failed_files.count f ≤ 1) :
    f ∉ (st.mark_file_completed f).failed_files := by
  unfold DeploymentState.mark_file_completed
  dsimp only
  split
  · next hm =>
    have hmem : f ∈ st.failed_files := by simpa using hm
    have h1 : st.failed_files.count f = 1 :=
      le_antisymm h (List.count_pos_iff.mpr hmem)
    rw [← List.count_pos_iff]
    simp [List.count_erase_self, h1]
  · next hn => simpa using hn

lemma mark_file_completed_failed_count (st : DeploymentState) (f : String)
    (h : st.failed_files.count f ≤ 1) :
    (st.mark_file_completed f).failed_files.count f ≤ 1 := by
  unfold DeploymentState.mark_file_completed
  dsimp only
  split
  · calc (st.failed_files.erase f).count f = st.failed_files.count f - 1 :=
          List.count_erase_self f st.failed_files
      _ ≤ 1 := le_trans (Nat.sub_le _ _) h
  · exact h

lemma mark_file_completed_completed_count (st : DeploymentState) (f : String)
    (h : st.completed_files.count f ≤ 1) :
    (st.mark_file_completed f).completed_files.count f ≤ 1 := by
  unfold DeploymentState.mark_file_completed
  dsimp only
  split
  · exact h
  · next hn =>
    have : f ∉ st.completed_files := by simpa using hn
    simp [List.count_append, List.count_eq_zero.mpr this]

lemma mark_file_completed_noop (st : DeploymentState) (f : String)
    (h1 : f ∈ st.completed_files) (h2 : f ∉ st.failed_files) :
    st.mark_file_completed f = st := by
  simp [DeploymentState.mark_file_completed, h1, h2]

lemma mark_file_failed_idem (st : DeploymentState) (f : String) :
    (st.mark_file_failed f).mark_file_failed f = st.mark_file_failed f := by
  by_cases hmem : f ∈ st.failed_files
  · simp [DeploymentState.mark_file_failed, hmem]
  · simp [DeploymentState.mark_file_failed, hmem]

lemma applyMarks_cons (st : DeploymentState) (f : String) (op : MarkOp) (rest : List MarkOp) :
    applyMarks st f (op :: rest) = applyMarks (applyMark st f op) f rest := by
  simp [applyMarks]

/-- Full membership characterization of a mark-call sequence on one filename,
relative to any starting state holding at most one `failed_files` copy of it:
the file ends up in `completed_files` iff it started there or some
`mark_file_completed` call occurred, and it ends up in `failed_files` iff the
last call was `mark_file_failed` (or no call happened and it started there). -/
lemma applyMarks_characterization (f : String) (ops : List MarkOp) :
    ∀ st : DeploymentState, st.failed_files.count f ≤ 1 →
      (applyMarks st f ops).failed_files.count f ≤ 1
      ∧ (f ∈ (applyMarks st f ops).completed_files ↔
          (f ∈ st.completed_files ∨ MarkOp.complete ∈ ops))
      ∧ (f ∈ (applyMarks st f ops).failed_files ↔
          (ops.getLast? = some MarkOp.fail ∨ (ops = [] ∧ f ∈ st.failed_files))) := by
  induction ops with
  | nil =>
    intro st h
    simp [applyMarks, h]
  | cons op rest ih =>
    intro st h
    rw [applyMarks_cons]
    cases op with
    | fail =>
      simp only [applyMark]
      have hcount : (st.mark_file_failed f).failed_files.count f ≤ 1 :=
        mark_file_failed_count st f h
      obtain ⟨hc, hcm, hfm⟩ := ih (st.mark_file_failed f) hcount
      refine ⟨hc, ?_, ?_⟩
      · rw [hcm, mark_file_failed_completed_eq]
        simp
      · rw [hfm]
        cases rest with
        | nil => simp [mark_file_failed_mem]
        | cons r rs =>
          simp only [List.getLast?_cons_cons]
          constructor
          · rintro (hl | ⟨hnil, _⟩)
            · exact Or.inl hl
            · exact absurd hnil (by simp)
          · rintro (hl | ⟨hnil, _⟩)
            · exact Or.inl hl
            · exact absurd hnil (by simp)
    | complete =>
      simp only [applyMark]
      have hcount : (st.mark_file_completed f).failed_files.count f ≤ 1 :=
        mark_file_completed_failed_count st f h
      obtain ⟨hc, hcm, hfm⟩ := ih (st.mark_file_completed f) hcount
      refine ⟨hc, ?_, ?_⟩
      · rw [hcm]
        simp [mark_file_completed_mem]
      · rw [hfm]
        cases rest with
        | nil =>
          simp [mark_file_completed_failed_not_mem st f h]
        | cons r rs =>
          simp only [List.getLast?_cons_cons]
          constructor
          · rintro (hl | ⟨hnil, _⟩)
            · exact Or.inl hl
            · exact absurd hnil (by simp)
          · rintro (hl | ⟨hnil, _⟩)
            · exact Or.inl hl
            · exact absurd hnil (by simp)

/-! ## Helper lemmas about the orchestration loop -/

lemma deployLoop_invoked_subset (runFile : String → FileExecOutcome) :
    ∀ (fs : List String) (st : DeploymentState), (deployLoop runFile st fs).2.2 ⊆ fs := by
  intro fs
  induction fs with
  | nil => intro st; simp [deployLoop]
  | cons f rest ih =>
    intro st
    cases hr : runFile f with
    | result b =>
      cases b
      · simp [deployLoop, hr]
      · simp only [deployLoop, hr]
        intro x hx
        rcases List.mem_cons.1 hx with h | h
        · exact h ▸ List.mem_cons_self f rest
        · exact List.mem_cons_of_mem f (ih _ h)
    | exn => simp [deployLoop, hr]

lemma deployLoop_invoked_head (runFile : String → FileExecOutcome)
    (st : DeploymentState) (f : String) (rest : List String) :
    (deployLoop runFile st (f :: rest)).2.2.head? = some f := by
  cases hr : runFile f with
  | result b => cases b <;> simp [deployLoop, hr]
  | exn => simp [deployLoop, hr]

/-! ## Helper lemmas about the Python-dict embedding -/

lemma dictLookup_mapVals {α : Type} (f : String → α → α) (k : String) :
    ∀ l : List (String × α), dictLookup k (mapVals f l) = (dictLookup k l).map (f k) := by
  intro l
  induction l with
  | nil => simp [mapVals, dictLookup]
  | cons p rest ih =>
    obtain ⟨k', v⟩ := p
    by_cases h : k' = k
    · subst h
      simp [mapVals, dictLookup]
    · simp [mapVals, dictLookup, h]
      simpa [mapVals] using ih

lemma dictLookup_dictInsert_self {α : Type} (k : String) (v : α) :
    ∀ l : List (String × α), dictLookup k (dictInsert k v l) = some v := by
  intro l
  induction l with
  | nil => simp [dictInsert, dictLookup]
  | cons p rest ih =>
    obtain ⟨k', v'⟩ := p
    by_cases h : k' = k
    · subst h
      simp [dictInsert, dictLookup]
    · simp [dictInsert, dictLookup, h, ih]

lemma dictLookup_dictInsert_ne {α : Type} (k k' : String) (v : α) (h : k' ≠ k) :
    ∀ l : List (String × α), dictLookup k (dictInsert k' v l) = dictLookup k l := by
  intro l
  induction l with
  | nil => simp [dictInsert, dictLookup, h]
  | cons p rest ih =>
    obtain ⟨k'', v''⟩ := p
    by_cases h2 : k'' = k'
    · subst h2
      simp [dictInsert, dictLookup, h]
    · by_cases h3 : k'' = k
      · subst h3
        simp [dictInsert, dictLookup, h2]
      · simp [dictInsert, dictLookup, h2, h3, ih]

lemma mem_dictInsert {α : Type} (k : String) (v : α) :
    ∀ (l : List (String × α)) (p : String × α),
      p ∈ dictInsert k v l → p = (k, v) ∨ p ∈ l := by
  intro l
  induction l with
  | nil => intro p hp; simpa [dictInsert] using hp
  | cons q rest ih =>
    intro p hp
    obtain ⟨k', v'⟩ := q
    by_cases h : k' = k
    · subst h
      simp [dictInsert] at hp
      rcases hp with h | h
      · left; simp [h]
      · right; simp [h]
    · simp [dictInsert, h] at hp
      rcases hp with h2 | h2
      · right; simp [h2]
      · rcases ih p h2 with h3 | h3
        · left; exact h3
        · right; exact List.mem_cons_of_mem _ h3

lemma initHostResults_values :
    ∀ (ips : List String) (acc : List (String × HostExecutionResult)),
      (∀ p ∈ acc, p.2 = { hostname := p.1 }) →
      ∀ p ∈ ips.foldl (fun a i => dictInsert i { hostname := i } a) acc,
        p.2 = { hostname := p.1 } := by
  intro ips
  induction ips with
  | nil => intro acc hacc p hp; exact hacc p hp
  | cons i rest ih =>
    intro acc hacc p hp
    refine ih (dictInsert i { hostname := i } acc) ?_ p hp
    intro q hq
    rcases mem_dictInsert i { hostname := i } acc q hq with h | h
    · simp [h]
    · exact hacc q h

lemma initHostResults_entry (host_ips : List String) :
    ∀ p ∈ initHostResults host_ips, p.2 = { hostname := p.1 } := by
  intro p hp
  exact initHostResults_values host_ips [] (by simp) p hp

lemma summaryMetrics_invariant (r : InfraExecutionResult) :
    (calculateSummaryMetrics r).success
      = ((calculateSummaryMetrics r).global_error == none
          && ((calculateSummaryMetrics r).host_results.countP (fun p => !p.2.success) == 0)
          && decide (0 < (calculateSummaryMetrics r).total_hosts))
    ∧ (calculateSummaryMetrics r).failed_hosts
        = (calculateSummaryMetrics r).host_results.countP (fun p => !p.2.success) := by
  constructor <;> rfl

lemma execute_files_fst_is_summary (files : List (String × Bool × Bool))
    (host_ips : List String) (failFast : Bool) (mode : ExecMode)
    (runFile : String → Except String InfraExecutionResult) :
    ∃ r, (execute_files files host_ips failFast mode runFile).1
      = calculateSummaryMetrics r := by
  unfold execute_files
  rcases h : files.find? (fun f => !f.2.1 || !f.2.2) with _ | f
  · simp only [h]
    cases mode with
    | sequential =>
      cases failFast
      · exact ⟨_, rfl⟩
      · exact ⟨_, rfl⟩
    | parallel order => exact ⟨_, rfl⟩
  · simp only [h]
    exact ⟨_, rfl⟩

/-! ## Claim C1: no completed/failed overlap -/

/-- C1 counterexample: the claim "after any call the filename appears in
exactly one of the two sets, never both" fails on the sequence
`mark_file_completed "a"` then `mark_file_failed "a"` starting from the
fresh state: afterwards `"a"` is in both sets, because `mark_file_failed`
does not remove the filename from `completed_files`. -/
theorem C1_no_overlap_counterexample :
    ("a" ∈ (applyMarks DeploymentState.initial "a"
        [MarkOp.complete, MarkOp.fail]).completed_files)
    ∧ ("a" ∈ (applyMarks DeploymentState.initial "a"
        [MarkOp.complete, MarkOp.fail]).failed_files) := by
  decide

/-- C1 (amended): for every nonempty sequence of `mark_file_completed` and
`mark_file_failed` calls on the same filename starting from the fresh state,
after any call the filename appears in at least one of the two sets, and it
appears in both exactly when the last call is `mark_file_failed` while some
`mark_file_completed` occurred in the sequence (since `mark_file_failed`
does not remove the filename from `completed_files`). -/
theorem C1_no_overlap_amended (f : String) (ops : List MarkOp) (hne : ops ≠ []) :
    (f ∈ (applyMarks DeploymentState.initial f ops).completed_files
      ∨ f ∈ (applyMarks DeploymentState.initial f ops).failed_files)
    ∧ ((f ∈ (applyMarks DeploymentState.initial f ops).completed_files
        ∧ f ∈ (applyMarks DeploymentState.initial f ops).failed_files)
       ↔ (ops.getLast? = some MarkOp.fail ∧ MarkOp.complete ∈ ops)) := by
  obtain ⟨-, hcm, hfm⟩ :=
    applyMarks_characterization f ops DeploymentState.initial (by simp [DeploymentState.initial])
  simp only [DeploymentState.initial, List.not_mem_nil, false_or, and_false, or_false]
    at hcm hfm ⊢
  rw [hcm, hfm]
  have hlast : ops.getLast? = some (ops.getLast hne) := List.getLast?_eq_getLast_of_ne_nil hne
  have hmem : ops.getLast hne ∈ ops := List.getLast_mem hne
  refine ⟨?_, by tauto⟩
  cases hop : ops.getLast hne with
  | complete =>
    left
    rw [hop] at hmem
    exact hmem
  | fail =>
    right
    rw [hop] at hlast
    exact hlast

/-- C1 witness: the amended theorem applied to the singleton sequence
consisting of one `mark_file_completed "a"` call. -/
theorem C1_no_overlap_amended_witness :
    ([MarkOp.complete] ≠ ([] : List MarkOp))
    ∧ (("a" ∈ (applyMarks DeploymentState.initial "a" [MarkOp.complete]).completed_files
        ∨ "a" ∈ (applyMarks DeploymentState.initial "a" [MarkOp.complete]).failed_files)
      ∧ (("a" ∈ (applyMarks DeploymentState.initial "a" [MarkOp.complete]).completed_files
          ∧ "a" ∈ (applyMarks DeploymentState.initial "a" [MarkOp.complete]).failed_files)
         ↔ (([MarkOp.complete] : List MarkOp).getLast? = some MarkOp.fail
            ∧ MarkOp.complete ∈ ([MarkOp.complete] : List MarkOp)))) :=
  ⟨by decide, C1_no_overlap_amended "a" [MarkOp.complete] (by decide)⟩

/-! ## Claim C2: fail-fast stops the pipeline -/

/-- C2: on a file list `[f1, f2, f3]` of distinct names with the stored hash
pair matching the current one, where `f1` succeeds and `f2` returns
`success = False`, `execute_deployment` hands exactly `[f1, f2]` to the
executor (so never `f3`), returns failure, and the final state has `f1` in
`completed_files`, `f2` in `failed_files`, and `f3` in neither set. -/
theorem C2_fail_fast_stops_pipeline (f1 f2 f3 ch dh : String)
    (runFile : String → FileExecOutcome)
    (_h12 : f1 ≠ f2) (h13 : f1 ≠ f3) (h23 : f2 ≠ f3)
    (h1 : runFile f1 = .result true) (h2 : runFile f2 = .result false) :
    execute_deployment ⟨[], [], some ch, some dh⟩ ch dh [f1, f2, f3] runFile
      = (false, ⟨[f1], [f2], some ch, some dh⟩, [f1, f2])
    ∧ f3 ∉ ([f1, f2] : List String)
    ∧ f3 ∉ ([f1] : List String) ∧ f3 ∉ ([f2] : List String) := by
  refine ⟨?_, by simp [Ne.symm h13, Ne.symm h23], by simp [Ne.symm h13], by simp [Ne.symm h23]⟩
  simp [execute_deployment, filterPendingFiles, DeploymentState.should_force_redeploy,
        DeploymentState.is_file_completed, deployLoop, h1, h2,
        DeploymentState.mark_file_completed, DeploymentState.mark_file_failed]

/-- C2 witness: the theorem applied to files `"a"`, `"b"`, `"c"` with an
executor succeeding on `"a"` and failing on `"b"`. -/
theorem C2_fail_fast_stops_pipeline_witness :
    ((fun f => if f == "a" then FileExecOutcome.result true
        else FileExecOutcome.result false) "a" = FileExecOutcome.result true)
    ∧ ((fun f => if f == "a" then FileExecOutcome.result true
        else FileExecOutcome.result false) "b" = FileExecOutcome.result false)
    ∧ (execute_deployment ⟨[], [], some "h", some "g"⟩ "h" "g" ["a", "b", "c"]
          (fun f => if f == "a" then FileExecOutcome.result true
            else FileExecOutcome.result false)
        = (false, ⟨["a"], ["b"], some "h", some "g"⟩, ["a", "b"])
      ∧ ("c" : String) ∉ (["a", "b"] : List String)
      ∧ ("c" : String) ∉ (["a"] : List String) ∧ ("c" : String) ∉ (["b"] : List String)) :=
  ⟨by decide, by decide,
    C2_fail_fast_stops_pipeline "a" "b" "c" "h" "g" _
      (by decide) (by decide) (by decide) (by decide) (by decide)⟩

/-! ## Claim C3: idempotent resume -/

/-- C3: with the stored hash pair matching the current one, file `A` marked
completed and `B`, `C` not completed, re-running `execute_deployment` on
`[A, B, C]` never hands `A` to the executor and attempts `B` first. -/
theorem C3_idempotent_resume (A B C ch dh : String) (completed failed : List String)
    (runFile : String → FileExecOutcome)
    (hAB : A ≠ B) (hAC : A ≠ C)
    (hA : A ∈ completed) (hB : B ∉ completed) (hC : C ∉ completed) :
    A ∉ (execute_deployment ⟨completed, failed, some ch, some dh⟩ ch dh [A, B, C] runFile).2.2
    ∧ (execute_deployment ⟨completed, failed, some ch, some dh⟩ ch dh [A, B, C] runFile).2.2.head?
        = some B := by
  have hpend :
      filterPendingFiles ⟨completed, failed, some ch, some dh⟩ ch dh [A, B, C]
        = (⟨completed, failed, some ch, some dh⟩, [B, C]) := by
    simp [filterPendingFiles, DeploymentState.should_force_redeploy,
          DeploymentState.is_file_completed, hA, hB, hC]
  have hrun :
      execute_deployment ⟨completed, failed, some ch, some dh⟩ ch dh [A, B, C] runFile
        = deployLoop runFile ⟨completed, failed, some ch, some dh⟩ [B, C] := by
    simp [execute_deployment, hpend]
  rw [hrun]
  constructor
  · intro hmem
    have := deployLoop_invoked_subset runFile [B, C] ⟨completed, failed, some ch, some dh⟩ hmem
    rcases List.mem_cons.1 this with h | h
    · exact hAB h
    · exact hAC (by simpa using h)
  · exact deployLoop_invoked_head runFile _ B [C]

/-- C3 witness: the theorem applied to files `"a"`, `"b"`, `"c"` with `"a"`
already completed and an always-succeeding executor. -/
theorem C3_idempotent_resume_witness :
    (("a" : String) ∈ (["a"] : List String))
    ∧ (("b" : String) ∉ (["a"] : List String))
    ∧ (("a" : String) ∉ (execute_deployment ⟨["a"], [], some "h", some "g"⟩ "h" "g"
          ["a", "b", "c"] (fun _ => FileExecOutcome.result true)).2.2
      ∧ (execute_deployment ⟨["a"], [], some "h", some "g"⟩ "h" "g" ["a", "b", "c"]
          (fun _ => FileExecOutcome.result true)).2.2.head? = some "b") :=
  ⟨by decide, by decide,
    C3_idempotent_resume "a" "b" "c" "h" "g" ["a"] [] _
      (by decide) (by decide) (by decide) (by decide) (by decide)⟩

/-! ## Claim C4: hash-triggered reset -/

/-- C4: when the state was persisted under a hash pair different from the
currently computed one, `should_force_redeploy` returns true and
`filterPendingFiles` clears both `completed_files` and `failed_files`
(via `reset_state`) and returns the full deployment-file list. -/
theorem C4_hash_triggered_reset (c1 d1 c2 d2 : String)
    (completed failed : List String) (files : List String)
    (hne : (c1, d1) ≠ (c2, d2)) :
    DeploymentState.should_force_redeploy ⟨completed, failed, some c1, some d1⟩ c2 d2 = true
    ∧ filterPendingFiles ⟨completed, failed, some c1, some d1⟩ c2 d2 files
        = (⟨[], [], some c2, some d2⟩, files) := by
  have h : c1 ≠ c2 ∨ d1 ≠ d2 := by
    by_contra hcon
    push_neg at hcon
    exact hne (by simp [hcon.1, hcon.2])
  have hforce :
      DeploymentState.should_force_redeploy ⟨completed, failed, some c1, some d1⟩ c2 d2
        = true := by
    rcases h with h | h <;> simp [DeploymentState.should_force_redeploy, h]
  refine ⟨hforce, ?_⟩
  simp [filterPendingFiles, hforce, DeploymentState.reset_state, DeploymentState.initial,
        DeploymentState.set_deployment_hash]

/-- C4 witness: the theorem applied to two concrete distinct hash pairs. -/
theorem C4_hash_triggered_reset_witness :
    ((("h1", "g1") : String × String) ≠ ("h2", "g2"))
    ∧ (DeploymentState.should_force_redeploy ⟨["f"], ["e"], some "h1", some "g1"⟩ "h2" "g2"
        = true
      ∧ filterPendingFiles ⟨["f"], ["e"], some "h1", some "g1"⟩ "h2" "g2" ["x", "y"]
          = (⟨[], [], some "h2", some "g2"⟩, ["x", "y"])) :=
  ⟨by decide, C4_hash_triggered_reset "h1" "g1" "h2" "g2" ["f"] ["e"] ["x", "y"] (by decide)⟩

/-! ## Claim C9: idempotence of the mark API -/

/-- C9 counterexample: `mark_file_completed` is not idempotent on every
state: on a state whose `failed_files` holds two copies of `"a"`, calling it
twice removes both copies while calling it once removes only the first
(`list.remove` removes a single occurrence). -/
theorem C9_mark_idempotent_counterexample :
    DeploymentState.mark_file_completed
        (DeploymentState.mark_file_completed ⟨[], ["a", "a"], none, none⟩ "a") "a"
      ≠ DeploymentState.mark_file_completed ⟨[], ["a", "a"], none, none⟩ "a" := by
  decide

/-- C9 (amended): on every state in which the filename occurs at most once
in `completed_files` and at most once in `failed_files` — which is every
state the mark API itself can produce — both markers are idempotent and
neither produces a duplicate entry of the filename in either list. -/
theorem C9_mark_idempotent_amended (st : DeploymentState) (f : String)
    (hc : st.completed_files.count f ≤ 1) (hf : st.failed_files.count f ≤ 1) :
    (st.mark_file_failed f).mark_file_failed f = st.mark_file_failed f
    ∧ (st.mark_file_completed f).mark_file_completed f = st.mark_file_completed f
    ∧ (st.mark_file_completed f).completed_files.count f ≤ 1
    ∧ (st.mark_file_completed f).failed_files.count f ≤ 1
    ∧ (st.mark_file_failed f).completed_files.count f ≤ 1
    ∧ (st.mark_file_failed f).failed_files.count f ≤ 1 := by
  refine ⟨mark_file_failed_idem st f, ?_,
    mark_file_completed_completed_count st f hc,
    mark_file_completed_failed_count st f hf, ?_,
    mark_file_failed_count st f hf⟩
  · exact mark_file_completed_noop _ f (mark_file_completed_mem st f)
      (mark_file_completed_failed_not_mem st f hf)
  · rw [mark_file_failed_completed_eq]
    exact hc

/-- C9 witness: the amended theorem applied to the state with
`completed_files = ["x"]` and `failed_files = ["a"]` and filename `"a"`. -/
theorem C9_mark_idempotent_amended_witness :
    ((⟨["x"], ["a"], none, none⟩ : DeploymentState).completed_files.count "a" ≤ 1
      ∧ (⟨["x"], ["a"], none, none⟩ : DeploymentState).failed_files.count "a" ≤ 1)
    ∧ (((⟨["x"], ["a"], none, none⟩ : DeploymentState).mark_file_failed "a").mark_file_failed "a"
        = (⟨["x"], ["a"], none, none⟩ : DeploymentState).mark_file_failed "a"
      ∧ ((⟨["x"], ["a"], none, none⟩ : DeploymentState).mark_file_completed "a").mark_file_completed "a"
        = (⟨["x"], ["a"], none, none⟩ : DeploymentState).mark_file_completed "a"
      ∧ ((⟨["x"], ["a"], none, none⟩ : DeploymentState).mark_file_completed "a").completed_files.count "a" ≤ 1
      ∧ ((⟨["x"], ["a"], none, none⟩ : DeploymentState).mark_file_completed "a").failed_files.count "a" ≤ 1
      ∧ ((⟨["x"], ["a"], none, none⟩ : DeploymentState).mark_file_failed "a").completed_files.count "a" ≤ 1
      ∧ ((⟨["x"], ["a"], none, none⟩ : DeploymentState).mark_file_failed "a").failed_files.count "a" ≤ 1) :=
  ⟨⟨by decide, by decide⟩,
    C9_mark_idempotent_amended ⟨["x"], ["a"], none, none⟩ "a" (by decide) (by decide)⟩

/-! ## Claim C6: invalid file path touches no host -/

/-- C6: when the path validation fails (the file does not exist, or exists
but is not a regular file), `execute_file` returns a result with a non-null
`global_error` and `success = false`, the result does not depend on the
pyinfra run at all (no connection is attempted), and every requested host
keeps `connected = false` with an empty operations map. -/
theorem C6_invalid_path_no_host_touched (fileExists isFile : Bool)
    (host_ips : List String) (run run' : PyInfraRun)
    (h : fileExists = false ∨ isFile = false) :
    (execute_file fileExists isFile host_ips run).global_error.isSome = true
    ∧ (execute_file fileExists isFile host_ips run).success = false
    ∧ execute_file fileExists isFile host_ips run
        = execute_file fileExists isFile host_ips run'
    ∧ ∀ p ∈ (execute_file fileExists isFile host_ips run).host_results,
        p.2.connected = false ∧ p.2.operations = [] := by
  have hcore : ∃ msg : String, ∀ r : PyInfraRun,
      executeFileCore fileExists isFile host_ips r
        = { total_hosts := host_ips.length
            host_results := initHostResults host_ips
            global_error := some msg
            success := false } := by
    rcases h with h | h
    · subst h
      refine ⟨"Infrastructure execution failed: Infrastructure file not found", fun r => ?_⟩
      simp [executeFileCore]
    · subst h
      cases fileExists with
      | false =>
        refine ⟨"Infrastructure execution failed: Infrastructure file not found", fun r => ?_⟩
        simp [executeFileCore]
      | true =>
        refine ⟨"Infrastructure execution failed: Path is not a file", fun r => ?_⟩
        simp [executeFileCore]
  obtain ⟨msg, hcore⟩ := hcore
  have he : ∀ r : PyInfraRun,
      execute_file fileExists isFile host_ips r
        = calculateSummaryMetrics
            { total_hosts := host_ips.length
              host_results := initHostResults host_ips
              global_error := some msg
              success := false } := by
    intro r
    unfold execute_file
    rw [hcore r]
  refine ⟨?_, ?_, ?_, ?_⟩
  · rw [he run]
    simp [calculateSummaryMetrics]
  · rw [he run]
    simp [calculateSummaryMetrics]
  · rw [he run, he run']
  · rw [he run]
    intro p hp
    have hp' : p ∈ initHostResults host_ips := hp
    have hv := initHostResults_entry host_ips p hp'
    constructor
    · rw [hv]
    · rw [hv]

/-- C6 witness: the theorem applied to a missing file, one host and a
pyinfra oracle that is never consulted. -/
theorem C6_invalid_path_no_host_touched_witness :
    ((false = false ∨ true = false))
    ∧ (execute_file false true ["10.0.0.1"]
        ⟨[], true, fun _ => none, false, fun _ => none, []⟩).global_error.isSome = true
    ∧ (execute_file false true ["10.0.0.1"]
        ⟨[], true, fun _ => none, false, fun _ => none, []⟩).success = false :=
  ⟨Or.inl rfl,
    (C6_invalid_path_no_host_touched false true ["10.0.0.1"]
      ⟨[], true, fun _ => none, false, fun _ => none, []⟩
      ⟨[], true, fun _ => none, false, fun _ => none, []⟩ (Or.inl rfl)).1,
    (C6_invalid_path_no_host_touched false true ["10.0.0.1"]
      ⟨[], true, fun _ => none, false, fun _ => none, []⟩
      ⟨[], true, fun _ => none, false, fun _ => none, []⟩ (Or.inl rfl)).2.1⟩

/-! ## Claim C7: duplicate operation names are disambiguated -/

/-- C7: a host whose engine run reports three operations all named
`"install package"` (in that order) collects exactly the three distinct
keys `install package`, `install package_1`, `install package_2`, in the
order encountered, each bound to its own `HostOperationResult` built from
that operation's success/output/error. -/
theorem C7_operation_name_disambiguation (h1 h2 h3 : String) (o1 o2 o3 : PyOpResult)
    (hr : HostExecutionResult) (hops : hr.operations = [])
    (hd12 : h1 ≠ h2) (hd13 : h1 ≠ h3) (hd23 : h2 ≠ h3)
    (hn1 : o1.name = some "install package")
    (hn2 : o2.name = some "install package")
    (hn3 : o3.name = some "install package") :
    (collectHostOps [h1, h2, h3] ⟨[(h1, o1), (h2, o2), (h3, o3)], none⟩ hr).operations
      = [("install package",
          { operation_name := "install package", success := o1.success, changed := o1.changed
            output := o1.output
            error := if !o1.success && strTruthy o1.error then o1.error else none }),
         ("install package_1",
          { operation_name := "install package_1", success := o2.success, changed := o2.changed
            output := o2.output
            error := if !o2.success && strTruthy o2.error then o2.error else none }),
         ("install package_2",
          { operation_name := "install package_2", success := o3.success, changed := o3.changed
            output := o3.output
            error := if !o3.success && strTruthy o3.error then o3.error else none })] := by
  have e1 : ("install package_" ++ toString (1 : Nat)) = "install package_1" := rfl
  have e2 : ("install package_" ++ toString (2 : Nat)) = "install package_2" := rfl
  simp [collectHostOps, collectOpsGo, collectOpsStep, dictLookup, dictInsert,
        hd12, hd13, hd23, hn1, hn2, hn3, hops, strTruthy,
        Ne.symm hd12, Ne.symm hd13, Ne.symm hd23, e1, e2]

/-- C7 witness: the theorem applied to three concrete operations named
`"install package"` with distinct op hashes. -/
theorem C7_operation_name_disambiguation_witness :
    (("h1" : String) ≠ "h2")
    ∧ (collectHostOps ["h1", "h2", "h3"]
        ⟨[("h1", ⟨some "install package", true, false, [], none⟩),
          ("h2", ⟨some "install package", false, false, ["boom"], some "err"⟩),
          ("h3", ⟨some "install package", true, true, [], none⟩)], none⟩
        ⟨"10.0.0.1", true, [], 0, 0, 0, 0, none⟩).operations
      = [("install package",
          { operation_name := "install package", success := true, changed := false
            output := [], error := none }),
         ("install package_1",
          { operation_name := "install package_1", success := false, changed := false
            output := ["boom"], error := some "err" }),
         ("install package_2",
          { operation_name := "install package_2", success := true, changed := true
            output := [], error := none })] := by
  refine ⟨by decide, ?_⟩
  have h := C7_operation_name_disambiguation "h1" "h2" "h3"
    ⟨some "install package", true, false, [], none⟩
    ⟨some "install package", false, false, ["boom"], some "err"⟩
    ⟨some "install package", true, true, [], none⟩
    ⟨"10.0.0.1", true, [], 0, 0, 0, 0, none⟩
    rfl (by decide) (by decide) (by decide) rfl rfl rfl
  simpa [strTruthy] using h

/-! ## Claim C8: the derived success invariant -/

/-- C8: every result returned by `execute_file` or `execute_files` satisfies
the invariant `success = (global_error is None && failed_hosts == 0 &&
total_hosts > 0)`, where `failed_hosts` counts exactly the hosts whose
derived `HostExecutionResult.success` (connected, no failed operation, no
error) is false. -/
theorem C8_success_invariant (fileExists isFile : Bool) (host_ips : List String)
    (run : PyInfraRun) (files : List (String × Bool × Bool)) (failFast : Bool)
    (mode : ExecMode) (runFile : String → Except String InfraExecutionResult) :
    ((execute_file fileExists isFile host_ips run).success
      = ((execute_file fileExists isFile host_ips run).global_error == none
          && ((execute_file fileExists isFile host_ips run).failed_hosts == 0)
          && decide (0 < (execute_file fileExists isFile host_ips run).total_hosts))
     ∧ (execute_file fileExists isFile host_ips run).failed_hosts
        = (execute_file fileExists isFile host_ips run).host_results.countP
            (fun p => !p.2.success))
    ∧ (((execute_files files host_ips failFast mode runFile).1).success
      = (((execute_files files host_ips failFast mode runFile).1).global_error == none
          && (((execute_files files host_ips failFast mode runFile).1).failed_hosts == 0)
          && decide (0 < ((execute_files files host_ips failFast mode runFile).1).total_hosts))
     ∧ ((execute_files files host_ips failFast mode runFile).1).failed_hosts
        = ((execute_files files host_ips failFast mode runFile).1).host_results.countP
            (fun p => !p.2.success)) := by
  constructor
  · have h := summaryMetrics_invariant (executeFileCore fileExists isFile host_ips run)
    refine ⟨?_, h.2⟩
    rw [show (execute_file fileExists isFile host_ips run).failed_hosts
          = (execute_file fileExists isFile host_ips run).host_results.countP
              (fun p => !p.2.success) from h.2]
    exact h.1
  · obtain ⟨r, hr⟩ := execute_files_fst_is_summary files host_ips failFast mode runFile
    rw [hr]
    have h := summaryMetrics_invariant r
    refine ⟨?_, h.2⟩
    rw [h.2]
    exact h.1



/-! ## Helper lemmas: host tracking through the executor (claim C10) -/

lemma foldl_preserve {α β : Type} (P : α → Prop) (step : α → β → α)
    (hstep : ∀ a b, P a → P (step a b)) :
    ∀ (l : List β) (a : α), P a → P (l.foldl step a) := by
  intro l
  induction l with
  | nil => intro a h; exact h
  | cons b rest ih => intro a h; exact ih _ (hstep a b h)

lemma hostsTracked_mapVals {ips : List String}
    (f : String → HostExecutionResult → HostExecutionResult)
    (hf : ∀ k hr, (f k hr).hostname = hr.hostname)
    {hrs : List (String × HostExecutionResult)} (h : hostsTracked ips hrs) :
    hostsTracked ips (mapVals f hrs) := by
  intro ip hip
  obtain ⟨hr, hl, hn⟩ := h ip hip
  refine ⟨f ip hr, ?_, ?_⟩
  · rw [dictLookup_mapVals, hl]
    rfl
  · rw [hf]
    exact hn

lemma initHostResults_lookup_aux :
    ∀ (ips : List String) (acc : List (String × HostExecutionResult)) (ip : String),
      (ip ∈ ips ∨ ∃ hr, dictLookup ip acc = some hr ∧ hr.hostname = ip) →
      ∃ hr, dictLookup ip (ips.foldl (fun a i => dictInsert i { hostname := i } a) acc)
          = some hr ∧ hr.hostname = ip := by
  intro ips
  induction ips with
  | nil =>
    intro acc ip h
    rcases h with h | h
    · simp at h
    · exact h
  | cons i rest ih =>
    intro acc ip h
    simp only [List.foldl_cons]
    apply ih
    rcases h with h | h
    · rcases List.mem_cons.1 h with h | h
      · subst h
        right
        exact ⟨_, dictLookup_dictInsert_self ip _ acc, rfl⟩
      · left
        exact h
    · obtain ⟨hr, hl, hn⟩ := h
      by_cases hik : i = ip
      · subst hik
        right
        exact ⟨_, dictLookup_dictInsert_self i _ acc, rfl⟩
      · right
        exact ⟨hr, by rw [dictLookup_dictInsert_ne _ _ _ hik, hl], hn⟩

lemma initHostResults_tracked (ips : List String) :
    hostsTracked ips (initHostResults ips) := by
  intro ip hip
  exact initHostResults_lookup_aux ips [] ip (Or.inl hip)

lemma collectOpsGo_hostname (opResults : List (String × PyOpResult)) :
    ∀ (order : List String) (hr : HostExecutionResult) (counter : List (String × Nat)),
      (collectOpsGo opResults order hr counter).hostname = hr.hostname := by
  intro order
  induction order with
  | nil => intro hr c; rfl
  | cons h rest ih =>
    intro hr c
    unfold collectOpsGo
    cases dictLookup h opResults with
    | none => exact ih hr c
    | some op => exact ih _ _

lemma collectHostOps_hostname (o : List String) (hrun : PyHostRun) (hr : HostExecutionResult) :
    (collectHostOps o hrun hr).hostname = hr.hostname := by
  unfold collectHostOps
  dsimp only
  split
  · exact collectOpsGo_hostname _ _ _ _
  · exact collectOpsGo_hostname _ _ _ _

lemma mergeHostResult_hostname (fn : String) (a b : HostExecutionResult) :
    (mergeHostResult fn a b).hostname = a.hostname := by
  have hfold : ∀ (l : List (String × HostOperationResult)) (acc : HostExecutionResult),
      (l.foldl (mergeOpsStep fn) acc).hostname = acc.hostname := by
    intro l
    induction l with
    | nil => intro acc; rfl
    | cons p rest ih => intro acc; simpa [mergeOpsStep] using ih _
  unfold mergeHostResult
  dsimp only
  split
  · exact hfold _ _
  · exact hfold _ _

lemma tracked_markConnected {ips : List String} (act : List String)
    {hrs : List (String × HostExecutionResult)} (h : hostsTracked ips hrs) :
    hostsTracked ips (markConnected act hrs) := by
  unfold markConnected
  apply hostsTracked_mapVals _ _ h
  intro k hr
  split <;> rfl

lemma tracked_applyExecModule {ips : List String} (eme : String → Option String)
    (act : List String) {hrs : List (String × HostExecutionResult)}
    (h : hostsTracked ips hrs) :
    hostsTracked ips (applyExecModule eme act hrs) := by
  unfold applyExecModule
  refine foldl_preserve (hostsTracked ips) _ ?_ act hrs h
  intro a ip ha
  apply hostsTracked_mapVals _ _ ha
  intro k hr
  split
  · cases eme ip <;> rfl
  · rfl

lemma tracked_collectOperationResults {ips : List String} (run : PyInfraRun)
    (r : InfraExecutionResult) (h : hostsTracked ips r.host_results) :
    hostsTracked ips (collectOperationResults run r).host_results := by
  unfold collectOperationResults
  split
  · exact h
  · refine foldl_preserve (fun res => hostsTracked ips res.host_results) _ ?_ run.activated r h
    intro res ip hres
    dsimp only
    apply hostsTracked_mapVals _ _ hres
    intro k hr
    split
    · cases run.hostRun ip with
      | none => rfl
      | some hrun => exact collectHostOps_hostname _ _ _
    · rfl

lemma collectOperationResults_total (run : PyInfraRun) (r : InfraExecutionResult) :
    (collectOperationResults run r).total_hosts = r.total_hosts := by
  unfold collectOperationResults
  split
  · rfl
  · refine foldl_preserve (fun res => res.total_hosts = r.total_hosts) _ ?_ run.activated r rfl
    intro res ip hres
    exact hres

lemma tracked_executeDeploymentModel {ips : List String} (run : PyInfraRun)
    (r : InfraExecutionResult) (h : hostsTracked ips r.host_results) :
    hostsTracked ips (exceptResult (executeDeploymentModel run r)).host_results
    ∧ (exceptResult (executeDeploymentModel run r)).total_hosts = r.total_hosts := by
  have h1 : hostsTracked ips (markConnected run.activated r.host_results) :=
    tracked_markConnected run.activated h
  have h2 : hostsTracked ips
      (applyExecModule run.execModuleError run.activated
        (markConnected run.activated r.host_results)) :=
    tracked_applyExecModule _ _ h1
  unfold executeDeploymentModel
  cases hA : run.activated.isEmpty
  · cases hM : run.moduleLoadOk
    · simp only [hA, hM, Bool.false_eq_true, if_false, Bool.not_false, if_true, exceptResult]
      exact ⟨h1, trivial⟩
    · simp only [hA, hM, Bool.false_eq_true, if_false, Bool.not_true, exceptResult]
      constructor
      · exact tracked_collectOperationResults run _ h2
      · exact collectOperationResults_total run _
  · simp only [hA, if_true, exceptResult]
    exact ⟨h1, trivial⟩

lemma tracks_executeFileCore (fileExists isFile : Bool) (host_ips : List String)
    (run : PyInfraRun) :
    (executeFileCore fileExists isFile host_ips run).total_hosts = host_ips.length
    ∧ hostsTracked host_ips (executeFileCore fileExists isFile host_ips run).host_results := by
  have hinit : hostsTracked host_ips (initHostResults host_ips) :=
    initHostResults_tracked host_ips
  unfold executeFileCore
  cases fileExists
  · simp only [Bool.not_false, if_true]
    exact ⟨trivial, hinit⟩
  · cases isFile
    · simp only [Bool.not_true, Bool.false_eq_true, if_false, Bool.not_false, if_true]
      exact ⟨trivial, hinit⟩
    · simp only [Bool.not_true, Bool.false_eq_true, if_false]
      have hd := tracked_executeDeploymentModel run
        { total_hosts := host_ips.length, host_results := initHostResults host_ips }
        (by exact hinit)
      cases hm : executeDeploymentModel run
          { total_hosts := host_ips.length, host_results := initHostResults host_ips } with
      | ok r' =>
        rw [hm] at hd
        exact ⟨hd.2, hd.1⟩
      | error pr =>
        rw [hm] at hd
        exact ⟨hd.2, hd.1⟩



lemma tracked_mergeExecutionResults {ips : List String} (main fileR : InfraExecutionResult)
    (fn : String) (h : hostsTracked ips main.host_results) :
    hostsTracked ips (mergeExecutionResults main fileR fn).host_results := by
  unfold mergeExecutionResults
  dsimp only
  apply hostsTracked_mapVals _ _ h
  intro k hr
  cases hm : dictLookup k fileR.host_results with
  | none => simp [hm]
  | some fh => simp [hm, mergeHostResult_hostname]

lemma tracked_stampFailedOp {ips : List String} (key msg : String)
    {hrs : List (String × HostExecutionResult)} (h : hostsTracked ips hrs) :
    hostsTracked ips (stampFailedOp key msg hrs) := by
  unfold stampFailedOp
  apply hostsTracked_mapVals _ _ h
  intro k hr
  split <;> rfl

lemma tracks_seqFailFast (ips : List String) (n : Nat)
    (runFile : String → Except String InfraExecutionResult) :
    ∀ (fs : List String) (r : InfraExecutionResult),
      r.total_hosts = n → hostsTracked ips r.host_results →
      (seqFailFast runFile fs r).1.total_hosts = n
      ∧ hostsTracked ips (seqFailFast runFile fs r).1.host_results := by
  intro fs
  induction fs with
  | nil =>
    intro r ht hh
    unfold seqFailFast
    dsimp only
    refine ⟨ht, ?_⟩
    apply hostsTracked_mapVals _ _ hh
    intro k hr
    rfl
  | cons f rest ih =>
    intro r ht hh
    unfold seqFailFast
    cases hr : runFile f with
    | error e =>
      dsimp only
      exact ⟨ht, tracked_stampFailedOp _ _ hh⟩
    | ok fileResult =>
      cases hs : fileResult.success with
      | false =>
        simp only [hs, Bool.not_false, if_true]
        refine ⟨ht, ?_⟩
        apply tracked_stampFailedOp
        exact tracked_mergeExecutionResults _ _ _ hh
      | true =>
        simp only [hs, Bool.not_true, Bool.false_eq_true, if_false]
        exact ih _ ht (tracked_mergeExecutionResults _ _ _ hh)

lemma tracks_seqContinue (ips : List String) (n : Nat)
    (runFile : String → Except String InfraExecutionResult) :
    ∀ (fs : List String) (r : InfraExecutionResult) (fr : List (String × Bool)),
      r.total_hosts = n → hostsTracked ips r.host_results →
      (seqContinue runFile fs r fr).1.total_hosts = n
      ∧ hostsTracked ips (seqContinue runFile fs r fr).1.host_results := by
  intro fs
  induction fs with
  | nil =>
    intro r fr ht hh
    exact ⟨ht, hh⟩
  | cons f rest ih =>
    intro r fr ht hh
    unfold seqContinue
    cases hr : runFile f with
    | ok fileResult =>
      exact ih _ _ ht (tracked_mergeExecutionResults _ _ _ hh)
    | error e =>
      exact ih _ _ ht (tracked_stampFailedOp _ _ hh)

lemma tracks_seqContinueFinish {ips : List String} (r : InfraExecutionResult)
    (fr : List (String × Bool)) (hh : hostsTracked ips r.host_results) :
    (seqContinueFinish r fr).total_hosts = r.total_hosts
    ∧ hostsTracked ips (seqContinueFinish r fr).host_results := by
  unfold seqContinueFinish
  dsimp only
  split
  · refine ⟨rfl, ?_⟩
    apply hostsTracked_mapVals _ _ hh
    intro k hr
    rfl
  · refine ⟨rfl, ?_⟩
    apply hostsTracked_mapVals _ _ hh
    intro k hr
    rfl

lemma tracks_parallelExec (ips : List String)
    (runFile : String → Except String InfraExecutionResult)
    (host_ips : List String) (order : List String) (r : InfraExecutionResult)
    (hh : hostsTracked ips r.host_results) :
    (parallelExec runFile host_ips order r).total_hosts = r.total_hosts
    ∧ hostsTracked ips (parallelExec runFile host_ips order r).host_results := by
  unfold parallelExec
  dsimp only
  have hfold :
      (order.foldl (fun acc file_name =>
        mergeExecutionResults acc
          (parallelFileResult host_ips file_name (runFile file_name)) file_name) r).total_hosts
        = r.total_hosts
      ∧ hostsTracked ips
          (order.foldl (fun acc file_name =>
            mergeExecutionResults acc
              (parallelFileResult host_ips file_name (runFile file_name)) file_name)
            r).host_results := by
    refine foldl_preserve
      (fun acc => acc.total_hosts = r.total_hosts ∧ hostsTracked ips acc.host_results)
      _ ?_ order r ⟨rfl, hh⟩
    intro acc fn hacc
    exact ⟨hacc.1, tracked_mergeExecutionResults _ _ _ hacc.2⟩
  refine ⟨hfold.1, ?_⟩
  apply hostsTracked_mapVals _ _ hfold.2
  intro k hr
  rfl

/-- C10: both `execute_file` and `execute_files` return a result whose
`host_results` has an entry for every requested IP — keyed by the IP, with
`hostname` equal to it — and whose `total_hosts` equals the length of the
requested list, for every oracle behavior (missing file, exceptions, zero
connected hosts included). -/
theorem C10_host_results_cover_requested_ips (fileExists isFile : Bool)
    (host_ips : List String) (run : PyInfraRun) (files : List (String × Bool × Bool))
    (failFast : Bool) (mode : ExecMode)
    (runFile : String → Except String InfraExecutionResult) :
    ((execute_file fileExists isFile host_ips run).total_hosts = host_ips.length
      ∧ hostsTracked host_ips (execute_file fileExists isFile host_ips run).host_results)
    ∧ (((execute_files files host_ips failFast mode runFile).1).total_hosts = host_ips.length
      ∧ hostsTracked host_ips
          ((execute_files files host_ips failFast mode runFile).1).host_results) := by
  constructor
  · have h := tracks_executeFileCore fileExists isFile host_ips run
    exact ⟨h.1, h.2⟩
  · have hinit : hostsTracked host_ips (initHostResults host_ips) :=
      initHostResults_tracked host_ips
    unfold execute_files
    rcases hfind : files.find? (fun f => !f.2.1 || !f.2.2) with _ | f
    · simp only [hfind]
      cases mode with
      | sequential =>
        dsimp only
        cases failFast
        · simp only [Bool.false_eq_true, if_false]
          have h := tracks_seqContinue host_ips host_ips.length runFile
            (files.map Prod.fst)
            { total_hosts := host_ips.length, host_results := initHostResults host_ips }
            [] rfl hinit
          have h2 := tracks_seqContinueFinish
            (seqContinue runFile (files.map Prod.fst)
              { total_hosts := host_ips.length, host_results := initHostResults host_ips } []).1
            (seqContinue runFile (files.map Prod.fst)
              { total_hosts := host_ips.length, host_results := initHostResults host_ips } []).2.1
            h.2
          exact ⟨h2.1.trans h.1, h2.2⟩
        · simp only [if_true]
          have h := tracks_seqFailFast host_ips host_ips.length runFile
            (files.map Prod.fst)
            { total_hosts := host_ips.length, host_results := initHostResults host_ips }
            rfl hinit
          exact ⟨h.1, h.2⟩
      | parallel order =>
        dsimp only
        have h := tracks_parallelExec host_ips runFile host_ips order
          { total_hosts := host_ips.length, host_results := initHostResults host_ips }
          hinit
        exact ⟨h.1, h.2⟩
    · simp only [hfind]
      exact ⟨rfl, hinit⟩



/-! ## Helper lemmas: the fail-fast sequential path (claim C5) -/

lemma execute_files_seq_fail_fast_eq (files : List (String × Bool × Bool))
    (host_ips : List String) (runFile : String → Except String InfraExecutionResult)
    (hfind : files.find? (fun f => !f.2.1 || !f.2.2) = none) :
    execute_files files host_ips true ExecMode.sequential runFile
      = (calculateSummaryMetrics (seqFailFast runFile (files.map Prod.fst)
            { total_hosts := host_ips.length, host_results := initHostResults host_ips }).1,
         (seqFailFast runFile (files.map Prod.fst)
            { total_hosts := host_ips.length, host_results := initHostResults host_ips }).2) := by
  unfold execute_files
  rw [hfind]
  rfl

lemma seqFailFast_ok_front (runFile : String → Except String InfraExecutionResult)
    (fres : String → InfraExecutionResult) :
    ∀ (pre : List String),
      (∀ f ∈ pre, runFile f = .ok (fres f) ∧ (fres f).success = true) →
      ∀ (rest : List String) (r : InfraExecutionResult),
        seqFailFast runFile (pre ++ rest) r
          = ((seqFailFast runFile rest
                (pre.foldl (fun acc f => mergeExecutionResults acc (fres f) f) r)).1,
             pre ++ (seqFailFast runFile rest
                (pre.foldl (fun acc f => mergeExecutionResults acc (fres f) f) r)).2) := by
  intro pre
  induction pre with
  | nil => intro h rest r; simp
  | cons f fs ih =>
    intro h rest r
    have hf := h f (List.mem_cons_self f fs)
    have hrest : ∀ g ∈ fs, runFile g = .ok (fres g) ∧ (fres g).success = true :=
      fun g hg => h g (List.mem_cons_of_mem f hg)
    simp only [List.cons_append]
    simp only [seqFailFast]
    rw [hf.1]
    simp only [hf.2, Bool.not_true, Bool.false_eq_true, if_false]
    rw [ih hrest rest (mergeExecutionResults r (fres f) f)]
    simp [List.foldl_cons]

/-- C5: in a sequential `execute_files` run with `fail_fast = True` over an
all-valid ordered file mapping whose names split as `pre ++ fk :: post`,
where every file in `pre` succeeds and `fk` returns a result with
`success = false`, exactly `pre ++ [fk]` is handed to the per-file executor
(no file after `fk` runs), `global_error` is set, the failing file's partial
result is merged into the aggregate, and every host of the merged aggregate
with `connected = true` receives the synthetic failed operation
`execution_stopped_at_<fk>` with its total and failed counters incremented. -/
theorem C5_fail_fast_merge_and_stamp (host_ips : List String) (files : List (String × Bool × Bool))
    (pre post : List String) (fk : String) (frk : InfraExecutionResult)
    (fres : String → InfraExecutionResult)
    (runFile : String → Except String InfraExecutionResult)
    (hvalid : ∀ f ∈ files, f.2.1 = true ∧ f.2.2 = true)
    (hnames : files.map Prod.fst = pre ++ fk :: post)
    (hpre : ∀ f ∈ pre, runFile f = Except.ok (fres f) ∧ (fres f).success = true)
    (hfk : runFile fk = Except.ok frk) (hfks : frk.success = false) :
    (execute_files files host_ips true ExecMode.sequential runFile).2 = pre ++ [fk]
    ∧ (execute_files files host_ips true ExecMode.sequential runFile).1.global_error.isSome
        = true
    ∧ (execute_files files host_ips true ExecMode.sequential runFile).1.success = false
    ∧ (execute_files files host_ips true ExecMode.sequential runFile).1.host_results
        = stampFailedOp ("execution_stopped_at_" ++ fk)
            ("Execution stopped due to failure in file: " ++ fk)
            (mergeExecutionResults
              (pre.foldl (fun acc f => mergeExecutionResults acc (fres f) f)
                { total_hosts := host_ips.length, host_results := initHostResults host_ips })
              frk fk).host_results
    ∧ ∀ (ip : String) (hr : HostExecutionResult),
        dictLookup ip (mergeExecutionResults
            (pre.foldl (fun acc f => mergeExecutionResults acc (fres f) f)
              { total_hosts := host_ips.length, host_results := initHostResults host_ips })
            frk fk).host_results = some hr →
        hr.connected = true →
        dictLookup ip
            (execute_files files host_ips true ExecMode.sequential runFile).1.host_results
          = some { hr with
              operations := dictInsert ("execution_stopped_at_" ++ fk)
                { operation_name := "execution_stopped_at_" ++ fk
                  success := false
                  error := some ("Execution stopped due to failure in file: " ++ fk) }
                hr.operations
              total_operations := hr.total_operations + 1
              failed_operations := hr.failed_operations + 1 } := by
  have hfind : files.find? (fun f => !f.2.1 || !f.2.2) = none := by
    apply List.find?_eq_none.mpr
    intro f hf
    simp [(hvalid f hf).1, (hvalid f hf).2]
  rw [execute_files_seq_fail_fast_eq files host_ips runFile hfind, hnames,
      seqFailFast_ok_front runFile fres pre hpre (fk :: post)
        { total_hosts := host_ips.length, host_results := initHostResults host_ips }]
  have hstep : seqFailFast runFile (fk :: post)
      (pre.foldl (fun acc f => mergeExecutionResults acc (fres f) f)
        { total_hosts := host_ips.length, host_results := initHostResults host_ips })
      = ({ mergeExecutionResults
            (pre.foldl (fun acc f => mergeExecutionResults acc (fres f) f)
              { total_hosts := host_ips.length, host_results := initHostResults host_ips })
            frk fk with
           global_error := some ("File " ++ fk ++ " execution failed: "
             ++ (if strTruthy frk.global_error then frk.global_error.getD ""
                 else "Unknown error"))
           success := false
           host_results := stampFailedOp ("execution_stopped_at_" ++ fk)
             ("Execution stopped due to failure in file: " ++ fk)
             (mergeExecutionResults
               (pre.foldl (fun acc f => mergeExecutionResults acc (fres f) f)
                 { total_hosts := host_ips.length, host_results := initHostResults host_ips })
               frk fk).host_results }, [fk]) := by
    simp only [seqFailFast]
    rw [hfk]
    simp only [hfks, Bool.not_false, if_true]
  rw [hstep]
  refine ⟨rfl, rfl, by simp [calculateSummaryMetrics], rfl, ?_⟩
  intro ip hr hlook hconn
  have hmv : dictLookup ip (stampFailedOp ("execution_stopped_at_" ++ fk)
      ("Execution stopped due to failure in file: " ++ fk)
      (mergeExecutionResults
        (pre.foldl (fun acc f => mergeExecutionResults acc (fres f) f)
          { total_hosts := host_ips.length, host_results := initHostResults host_ips })
        frk fk).host_results)
      = (dictLookup ip (mergeExecutionResults
          (pre.foldl (fun acc f => mergeExecutionResults acc (fres f) f)
            { total_hosts := host_ips.length, host_results := initHostResults host_ips })
          frk fk).host_results).map (fun hr =>
            if hr.connected then
              { hr with
                operations := dictInsert ("execution_stopped_at_" ++ fk)
                  { operation_name := "execution_stopped_at_" ++ fk
                    success := false
                    error := some ("Execution stopped due to failure in file: " ++ fk) }
                  hr.operations
                total_operations := hr.total_operations + 1
                failed_operations := hr.failed_operations + 1 }
            else hr) := by
    unfold stampFailedOp
    exact dictLookup_mapVals _ ip _
  show dictLookup ip (stampFailedOp _ _ _) = _
  rw [hmv, hlook]
  simp [hconn]



/-- C5 witness: the theorem applied to files `"a"`, `"b"`, `"c"` on one
host, where `"a"` succeeds and `"b"` fails. -/
theorem C5_fail_fast_merge_and_stamp_witness :
    (execute_files [("a", true, true), ("b", true, true), ("c", true, true)] ["10.0.0.1"]
        true ExecMode.sequential
        (fun f => if f == "b"
          then Except.ok { success := false, global_error := some "bad"
                           total_hosts := 1
                           host_results := [("10.0.0.1", { hostname := "10.0.0.1", connected := true })] }
          else Except.ok { success := true, total_hosts := 1
                           host_results := [("10.0.0.1", { hostname := "10.0.0.1", connected := true })] })).2
      = ["a", "b"]
    ∧ (execute_files [("a", true, true), ("b", true, true), ("c", true, true)] ["10.0.0.1"]
        true ExecMode.sequential
        (fun f => if f == "b"
          then Except.ok { success := false, global_error := some "bad"
                           total_hosts := 1
                           host_results := [("10.0.0.1", { hostname := "10.0.0.1", connected := true })] }
          else Except.ok { success := true, total_hosts := 1
                           host_results := [("10.0.0.1", { hostname := "10.0.0.1", connected := true })] })).1.global_error.isSome
      = true
    ∧ (execute_files [("a", true, true), ("b", true, true), ("c", true, true)] ["10.0.0.1"]
        true ExecMode.sequential
        (fun f => if f == "b"
          then Except.ok { success := false, global_error := some "bad"
                           total_hosts := 1
                           host_results := [("10.0.0.1", { hostname := "10.0.0.1", connected := true })] }
          else Except.ok { success := true, total_hosts := 1
                           host_results := [("10.0.0.1", { hostname := "10.0.0.1", connected := true })] })).1.success
      = false := by
  have h := C5_fail_fast_merge_and_stamp ["10.0.0.1"]
    [("a", true, true), ("b", true, true), ("c", true, true)]
    ["a"] ["c"] "b"
    { success := false, global_error := some "bad", total_hosts := 1
      host_results := [("10.0.0.1", { hostname := "10.0.0.1", connected := true })] }
    (fun _ => { success := true, total_hosts := 1
                host_results := [("10.0.0.1", { hostname := "10.0.0.1", connected := true })] })
    (fun f => if f == "b"
      then Except.ok { success := false, global_error := some "bad"
                       total_hosts := 1
                       host_results := [("10.0.0.1", { hostname := "10.0.0.1", connected := true })] }
      else Except.ok { success := true, total_hosts := 1
                       host_results := [("10.0.0.1", { hostname := "10.0.0.1", connected := true })] })
    (by decide) rfl
    (by
      intro f hf
      simp only [List.mem_singleton] at hf
      subst hf
      exact ⟨rfl, rfl⟩)
    rfl rfl
  exact ⟨h.1, h.2.1, h.2.2.1⟩


end KubEngine
